import Mathlib

/-!
Verification of the PTA v2 spider (`xcpcio_board_spider/spider/pta/v2/pta.py`)
against its specification.

The Python source is shallowly embedded: JSON payloads become structures whose
field order models the remote map's iteration order, Python dicts become
insertion-ordered association lists, Python sets become duplicate-free lists,
exceptions become `Except`, and `asyncio` effects are factored out so each
method is a pure function of the already-fetched payloads.  The helper
`utils.get_timestamp_from_iso8601` (not part of the spidered file) is passed in
as an abstract parameter `tsOf`.
-/

namespace XCPCIO

/-- Modelled from the spec: the verdict constants `constants.RESULT_ACCEPTED`,
`constants.RESULT_WRONG_ANSWER` and `constants.RESULT_UNKNOWN` imported by the
spider (the constants module is outside the spidered file); the spec calls them
"accepted / wrong-answer / unknown". -/
inductive Verdict where
  | accepted
  | wrong_answer
  | unknown
deriving DecidableEq

/-- `Color(background_color=..., color=...)` from the domain model. -/
structure Color where
  background_color : String
  color : String
deriving DecidableEq

/-- Modelled from the spec: the `Submission` domain record ("owning team
identifier, zero-based problem index, verdict, epoch-second timestamp, remote
submission identifier"); the class itself is outside the spidered file.  The
problem index is an integer because the spider computes it as
`ord(label) - ord('A')`. -/
structure Submission where
  team_id : String := ""
  status : Verdict := .unknown
  problem_id : Int := 0
  timestamp : Int := 0
  submission_id : String := ""
deriving DecidableEq

/-- Modelled from the spec: the `Team` domain record (identifier, display name,
organization, member names, group identifiers, demographic flag); the class
itself is outside the spidered file. -/
structure Team where
  team_id : String := ""
  name : String := ""
  organization : String := ""
  members : List String := []
  group : List String := []
  girl : Bool := false
deriving DecidableEq

/-- A Python `dict` as an insertion-ordered association list: lookup. -/
def dictGet? (d : List (String × α)) (k : String) : Option α :=
  (d.find? (fun p => p.1 == k)).map (fun p => p.2)

/-- A Python `dict` as an insertion-ordered association list: `d[k] = v`
replaces in place when the key exists and appends otherwise (Python dicts
preserve insertion order). -/
def dictSet : List (String × α) → String → α → List (String × α)
  | [], k, v => [(k, v)]
  | p :: rest, k, v => if p.1 == k then (k, v) :: rest else p :: dictSet rest k v

/-- The keys of a Python `dict`. -/
def dictKeys (d : List (String × α)) : List String :=
  d.map (fun p => p.1)

/-- A Python `set` as a duplicate-free list: `s.add(x)`. -/
def pySetAdd (s : List String) (x : String) : List String :=
  if x ∈ s then s else s ++ [x]

/-- One record of the `groups` payload, carrying a `fid` and a `name`
(the shape assumed by `_parse_groups`). -/
structure GroupRec where
  fid : String
  name : String
deriving DecidableEq

/-- The group record viewed as the Python dict `{"name": ..., "fid": ...}`
that `_parse_groups` iterates over and mutates. -/
def GroupRec.asDict (r : GroupRec) : List (String × String) :=
  [("name", r.name), ("fid", r.fid)]

/-- `PTA._parse_groups`.  The Python loop variable `group` shadows the
accumulator initialised by `group = {}`: each iteration rebinds `group` to the
current record and executes `group[fid] = name` on that record, so after the
loop `contest.group` is the last record (with one extra key), not an
accumulated mapping. -/
def parse_groups (groups : List GroupRec) : List (String × String) :=
  groups.foldl (fun _group r => dictSet r.asDict r.fid r.name) []

/-- The errors the spider can surface: a failed remote request
(`Exception(f"Failed to fetch ...")` / transport faults), the `KeyError`
raised by `self._problem_ids[...]` on an unknown problem id (the spec's
`UnknownProblemError`), and the `TypeError` raised by `asyncio.run` misuse. -/
inductive PTAError where
  | remoteRequest (msg : String)
  | unknownProblem (pid : String)
  | typeError (msg : String)
deriving DecidableEq

/-- The slice of the `Contest` domain object that the spider touches. -/
structure Contest where
  start_time : Int := 0
  end_time : Int := 0
  problem_quantity : Nat := 0
  problem_id : List Char := []
  balloon_color : List Color := []
  group : List (String × String) := []
deriving DecidableEq

/-- Modelled from the spec: `Contest.append_balloon_color` (defined outside the
spidered file) records "one balloon color per problem in the payload", i.e.
appends the given color to `balloon_color`. -/
def Contest.append_balloon_color (c : Contest) (col : Color) : Contest :=
  { c with balloon_color := c.balloon_color ++ [col] }

/-- One value of the remote `problemInfoByProblemSetProblemId` map.  The label
is a single character because the spider applies `ord(label)` to it. -/
structure ProblemInfo where
  label : Char
  balloonRgb : String
deriving DecidableEq

/-- The `teamInfo` object of a ranking record. -/
structure TeamInfo where
  teamFid : String := ""
  teamName : String := ""
  memberNames : List String := []
  schoolName : String := ""
  excluded : Bool := false
  girlMajor : Bool := false
  groupFids : List String := []
deriving DecidableEq

/-- One value of a ranking record's
`problemSubmissionDetailsByProblemSetProblemId` map. -/
structure ProblemStatus where
  status : Int := 0
  validSubmitCount : Int := 0
  acceptTime : Int := 0
  submitCountSnapshot : Int := 0
deriving DecidableEq

/-- One record of `xcpcRankings.rankings`. -/
structure RankingRec where
  teamFid : String := ""
  teamInfo : TeamInfo := {}
  problemSubmissionDetailsByProblemSetProblemId : List (String × ProblemStatus) := []
deriving DecidableEq

/-- The rank snapshot (`xcpc-rankings` payload): competition time window plus
the `xcpcRankings` problem map and ranking list.  List order models the JSON
maps' iteration order. -/
structure RankSnapshot where
  startAt : String := ""
  endAt : String := ""
  problemInfoByProblemSetProblemId : List (String × ProblemInfo) := []
  rankings : List RankingRec := []
deriving DecidableEq

/-- Python `ord` on the single-character labels. -/
def pyOrd (c : Char) : Int :=
  (c.toNat : Int)

/-- The loop body of `_parse_contest`: append the record's own `label` to
`contest.problem_id`, append its balloon color, and map the remote problem id
to `ord(label) - ord('A')`. -/
def parse_contest_step (acc : Contest × List (String × Int)) (pp : String × ProblemInfo) :
    Contest × List (String × Int) :=
  let label := pp.2.label
  let balloon_rgb := pp.2.balloonRgb
  let c := { acc.1 with problem_id := acc.1.problem_id ++ [label] }
  let c := c.append_balloon_color { background_color := balloon_rgb, color := "#000" }
  (c, dictSet acc.2 pp.1 (pyOrd label - pyOrd 'A'))

/-- `PTA._parse_contest`: sets the time window, rebuilds `problem_id` /
`balloon_color` from the remote problem map in iteration order, sets
`problem_quantity = len(problem_id)`, and returns the retained
`self._problem_ids` mapping. -/
def parse_contest (tsOf : String → Int) (data : RankSnapshot) (contest : Contest) :
    Contest × List (String × Int) :=
  let contest := { contest with
    start_time := tsOf data.startAt
    end_time := tsOf data.endAt
    problem_id := []
    balloon_color := [] }
  let res := data.problemInfoByProblemSetProblemId.foldl parse_contest_step (contest, [])
  ({ res.1 with problem_quantity := res.1.problem_id.length }, res.2)

/-- The loop body of `_parse_teams`: skip the record when its
`teamInfo.excluded` flag is set, otherwise key the built `Team` by `teamFid`
and add the id to the surviving set. -/
def parse_teams_step (acc : List (String × Team) × List String) (r : RankingRec) :
    List (String × Team) × List String :=
  let team_info := r.teamInfo
  if team_info.excluded then acc
  else
    let team : Team :=
      { team_id := r.teamFid
        name := team_info.teamName
        organization := team_info.schoolName
        members := team_info.memberNames
        group := team_info.groupFids
        girl := team_info.girlMajor }
    (dictSet acc.1 r.teamFid team, pySetAdd acc.2 r.teamFid)

/-- `PTA._parse_teams`: one pass over `rankings`, skipping records whose
`teamInfo.excluded` flag is set, keying surviving teams by `teamFid` and
recording the surviving id set. -/
def parse_teams (data : RankSnapshot) : List (String × Team) × List String :=
  data.rankings.foldl parse_teams_step ([], [])

/-- `PTA._make_fake_runs`: iterates every ranking record and its per-problem
summary fields but never appends a run (the body ends at a `TODO`), so the
resulting `Submissions` collection is the empty one it started as. -/
def make_fake_runs (data : RankSnapshot) : List Submission :=
  data.rankings.foldl
    (fun runs r =>
      let _team_id := r.teamInfo.teamFid
      r.problemSubmissionDetailsByProblemSetProblemId.foldl
        (fun runs pd =>
          let _score := pd.2.status
          let _validSubmitCount := pd.2.validSubmitCount
          let _acceptTime := pd.2.acceptTime
          let _submitCountSnapshot := pd.2.submitCountSnapshot
          runs)
        runs)
    []

/-- `PTA._parse_status`: exact match on the two known verdict strings,
anything else degrades to unknown. -/
def parse_status (status : String) : Verdict :=
  if status == "ACCEPTED" then .accepted
  else if status == "WRONG_ANSWER" then .wrong_answer
  else .unknown

/-- One record of a team's `submissions` payload. -/
structure SubmissionRec where
  status : String := ""
  problemSetProblemId : String := ""
  submitAt : String := ""
  submissionId : String := ""
deriving DecidableEq

/-- The loop of `_parse_team_runs`, carrying the `runs` accumulator: each
record's verdict is normalized, its remote problem id is looked up in the
retained `self._problem_ids` mapping — a missing key raises (Python
`KeyError`, the spec's `UnknownProblemError`) — and one `Submission` is
appended. -/
def parse_team_runs_loop (problem_ids : List (String × Int)) (tsOf : String → Int)
    (team_id : String) :
    List SubmissionRec → List Submission → Except PTAError (List Submission)
  | [], runs => .ok runs
  | s :: rest, runs =>
    let status := parse_status s.status
    match dictGet? problem_ids s.problemSetProblemId with
    | none => .error (.unknownProblem s.problemSetProblemId)
    | some pid =>
      parse_team_runs_loop problem_ids tsOf team_id rest
        (runs ++ [{ team_id := team_id
                    status := status
                    problem_id := pid
                    timestamp := tsOf s.submitAt
                    submission_id := s.submissionId }])

/-- `PTA._parse_team_runs`. -/
def parse_team_runs (problem_ids : List (String × Int)) (tsOf : String → Int)
    (data : List SubmissionRec) (team_id : String) : Except PTAError (List Submission) :=
  parse_team_runs_loop problem_ids tsOf team_id data []

/-- `PTA.kRetryTimes`. -/
def kRetryTimes : Nat := 5

/-- The `for i in range(self.kRetryTimes)` loop of
`_fetch_and_parse_team_runs` over the remaining attempt indices.  `attempt i`
is the i-th fetch-then-parse attempt.  A successful attempt returns
immediately; a failed attempt hits `except Exception as e: raise e`, which
re-raises at once — the rest of the index list (`_rest`) is never consumed.
Falling off the end of the loop would return Python `None`, hence the
`Option`. -/
def retry_loop (attempt : Nat → Except PTAError (List Submission)) :
    List Nat → Except PTAError (Option (List Submission))
  | [] => .ok none
  | i :: _rest =>
    match attempt i with
    | .ok runs => .ok (some runs)
    | .error e => .error e

/-- `PTA._fetch_and_parse_team_runs`, abstracted over the per-attempt
fetch-then-parse action. -/
def fetch_and_parse_team_runs (attempt : Nat → Except PTAError (List Submission)) :
    Except PTAError (Option (List Submission)) :=
  retry_loop attempt (List.range kRetryTimes)

/-- The timestamp ordering used by `all_runs.sort(key=lambda x: x.timestamp)`. -/
def tsLe (a b : Submission) : Prop :=
  a.timestamp ≤ b.timestamp

instance : DecidableRel tsLe :=
  fun a b => inferInstanceAs (Decidable (a.timestamp ≤ b.timestamp))

instance : IsTotal Submission tsLe :=
  ⟨fun a b => Int.le_total a.timestamp b.timestamp⟩

instance : IsTrans Submission tsLe :=
  ⟨fun _ _ _ h1 h2 => le_trans h1 h2⟩

/-- Python's `list.sort(key=lambda x: x.timestamp)` is a stable sort by the
key; modelled as insertion sort by `tsLe` (any stable sorting algorithm has
the same observable behaviour). -/
def pySortByTimestamp (l : List Submission) : List Submission :=
  List.insertionSort tsLe l

/-- The aggregation loops of `_parse`: for each batch result (in batch order),
`all_runs.extend(team_run)` for each team's runs (in team order). -/
def collect_runs (team_runs_batches : List (List (List Submission))) : List Submission :=
  team_runs_batches.foldl
    (fun all_runs batch => batch.foldl (fun all_runs team_run => all_runs ++ team_run) all_runs)
    []

/-- The tail of `_parse`'s fetch path: aggregate every batch's per-team run
lists in order, then `all_runs.sort(key=lambda x: x.timestamp)`. -/
def orchestrate (team_runs_batches : List (List (List Submission))) : List Submission :=
  pySortByTimestamp (collect_runs team_runs_batches)

/-- An observable event of `_parse`'s batching loop: an `asyncio.sleep(1)`
pacing pause, or the processing of one batch of teams. -/
inductive BatchEvent (α : Type) where
  | sleep : BatchEvent α
  | batch : List α → BatchEvent α
deriving DecidableEq

/-- The `batch_size = 100` constant of `_parse`. -/
def batch_size : Nat := 100

/-- Python's `range(start, stop, step)` for a positive step: the materialized
index list `[start, start + step, ...)` below `stop`, with
`⌈(stop - start) / step⌉` elements. -/
def pyRange (start stop step : Nat) : List Nat :=
  List.range' start ((stop - start + (step - 1)) / step) step

/-- `islice(teams, i, i + batch_size)`: the slice `teams[i:i+batch_size]`. -/
def teamSlice (teams : List α) (i : Nat) : List α :=
  (teams.drop i).take batch_size

/-- The event trace of the body of `for i in range(0, len(teams), batch_size)`
in `_parse`, over the remaining index list: `await asyncio.sleep(1)` if
`i > 0`, then process the batch `islice(teams, i, i + batch_size)`. -/
def run_batches_loop (teams : List α) : List Nat → List (BatchEvent α)
  | [] => []
  | i :: rest =>
    (if 0 < i then [BatchEvent.sleep] else []) ++
      BatchEvent.batch (teamSlice teams i) :: run_batches_loop teams rest

/-- The full batching event trace of `_parse` over a team list. -/
def run_batches (teams : List α) : List (BatchEvent α) :=
  run_batches_loop teams (pyRange 0 teams.length batch_size)

/-- The order-preserving partition of the team list into the consecutive
batches that `_parse`'s loop processes. -/
def teamChunks (teams : List α) : List (List α) :=
  (pyRange 0 teams.length batch_size).map (teamSlice teams)

/-- `PTA._process_team_runs_batch`: fetch-and-parse every team of the batch
(the `asyncio.gather` fan-out), collecting one run list per team; the batch
fails as soon as any team fails.  `teamSubs` is the per-team submissions
payload returned by a successful `_fetch_team_submissions`. -/
def process_team_runs_batch (problem_ids : List (String × Int)) (tsOf : String → Int)
    (teamSubs : String → List SubmissionRec) (team_batch : List Team) :
    Except PTAError (List (List Submission)) :=
  team_batch.mapM (fun team => parse_team_runs problem_ids tsOf (teamSubs team.team_id) team.team_id)

/-- The mutable state of a `PTA` instance. -/
structure PTAState where
  contest : Contest := {}
  teams : List (String × Team) := []
  runs : List Submission := []
  team_ids : List String := []
  problem_ids : List (String × Int) := []

/-- `PTA._parse` as a pure function of the already-fetched payloads
(`groupsData` for `groups`, `rank` for `xcpc-rankings`, `teamSubs` for the
per-team submission resources): parse groups, contest and teams; if
`fetch_runs` is false install the fake (empty) run list, otherwise process the
teams in batches of `batch_size` and install the timestamp-sorted aggregate. -/
def pta_parse (tsOf : String → Int) (groupsData : List GroupRec) (rank : RankSnapshot)
    (teamSubs : String → List SubmissionRec) (fetch_runs : Bool) (st : PTAState) :
    Except PTAError PTAState :=
  let st := { st with contest := { st.contest with group := parse_groups groupsData } }
  let pc := parse_contest tsOf rank st.contest
  let st := { st with contest := pc.1, problem_ids := pc.2 }
  let pt := parse_teams rank
  let st := { st with teams := pt.1, team_ids := pt.2 }
  if !fetch_runs then
    .ok { st with runs := make_fake_runs rank }
  else
    match (teamChunks (st.teams.map Prod.snd)).mapM
        (process_team_runs_batch st.problem_ids tsOf teamSubs) with
    | .error e => .error e
    | .ok batches => .ok { st with runs := orchestrate batches }

/-- A Python value as far as `asyncio.run`'s argument checking is concerned:
a plain function object, a coroutine object, or a boolean. -/
inductive PyVal where
  | func (name : String)
  | coroutine (name : String)
  | bool (b : Bool)
deriving DecidableEq

/-- `asyncio.run` semantics: it accepts exactly one positional argument
(`debug` and `loop_factory` are keyword-only), raising `TypeError` otherwise,
and that argument must be a coroutine object — only then does the event loop
execute it (`execMain`). -/
def asyncio_run (execMain : PyVal → Except PTAError PTAState) (args : List PyVal) :
    Except PTAError PTAState :=
  match args with
  | [main] =>
    match main with
    | .coroutine _ => execMain main
    | _ => .error (.typeError "a coroutine was expected")
  | _ => .error (.typeError "run() takes 1 positional argument but 2 were given")

/-- `PTA.run`: executes `asyncio.run(self._parse, fetch_runs)` — the coroutine
function `self._parse` is passed un-invoked, with `fetch_runs` as a second
positional argument. -/
def run (execMain : PyVal → Except PTAError PTAState) (fetch_runs : Bool) :
    Except PTAError PTAState :=
  asyncio_run execMain [PyVal.func "_parse", PyVal.bool fetch_runs]

/-! Concrete inputs used by counterexamples and witnesses. -/

/-- A per-attempt action whose first fetch-then-parse attempt fails with a
transient remote error while every later attempt would succeed. -/
def attemptFailOnce : Nat → Except PTAError (List Submission) :=
  fun i => if i = 0 then .error (.remoteRequest "Failed to fetch, status: 500") else .ok []

/-- A rank snapshot with a single problem whose remote record carries the
label `B`. -/
def snapOneProblem : RankSnapshot :=
  { problemInfoByProblemSetProblemId := [("p1", ⟨'B', "#ff0000"⟩)] }

/-- A rank snapshot with one surviving team and one excluded team. -/
def snapTwoTeams : RankSnapshot :=
  { rankings :=
      [ { teamFid := "t1", teamInfo := { teamFid := "t1", teamName := "Alpha" } }
      , { teamFid := "t9", teamInfo := { teamFid := "t9", teamName := "Ghost", excluded := true } } ] }

/-- A problem-id mapping knowing only the remote problem id `p1`. -/
def pidsOne : List (String × Int) :=
  [("p1", 0)]

/-- A team submissions payload whose records all reference the known `p1`. -/
def teamRunsKnown : List SubmissionRec :=
  [⟨"ACCEPTED", "p1", "2024-01-01T10:00:00Z", "s1"⟩,
   ⟨"WRONG_ANSWER", "p1", "2024-01-01T11:00:00Z", "s2"⟩]

/-- A team submissions payload whose second record references the unknown
remote problem id `p9`. -/
def teamRunsUnknown : List SubmissionRec :=
  [⟨"ACCEPTED", "p1", "2024-01-01T10:00:00Z", "s1"⟩,
   ⟨"WRONG_ANSWER", "p9", "2024-01-01T11:00:00Z", "s2"⟩]

/-! Helper lemmas. -/

/-- A fold whose step never changes the accumulator returns it unchanged. -/
theorem list_foldl_fixed {α : Type _} {β : Type _} (f : α → β → α)
    (hf : ∀ a b, f a b = a) : ∀ (l : List β) (a : α), l.foldl f a = a
  | [], _ => rfl
  | b :: l, a => by
    rw [List.foldl_cons, hf]
    exact list_foldl_fixed f hf l a

/-- The `_make_fake_runs` loops never append, so the result is always the
empty run list. -/
theorem make_fake_runs_eq_nil (data : RankSnapshot) : make_fake_runs data = [] :=
  list_foldl_fixed _
    (fun a _r => list_foldl_fixed _ (fun _ _ => rfl) _ a)
    data.rankings []

/-- Looking up the key just written by `dictSet` yields the written value. -/
theorem dictGet?_dictSet_self (d : List (String × α)) (k : String) (v : α) :
    dictGet? (dictSet d k v) k = some v := by
  induction d with
  | nil => simp [dictGet?, dictSet]
  | cons p rest ih =>
    by_cases h : p.1 == k
    · simp [dictGet?, dictSet, h]
    · simpa [dictGet?, dictSet, h] using ih

/-- `dictSet` leaves the binding of every other key unchanged. -/
theorem dictGet?_dictSet_ne {k2 k : String} (h : k2 ≠ k) (d : List (String × α)) (v : α) :
    dictGet? (dictSet d k v) k2 = dictGet? d k2 := by
  induction d with
  | nil => simp [dictGet?, dictSet, Ne.symm h]
  | cons p rest ih =>
    by_cases hp : p.1 == k
    · have hpk : p.1 = k := by simpa using hp
      have h2 : (k == k2) = false := by simp [Ne.symm h]
      have h3 : (p.1 == k2) = false := by simp [hpk, Ne.symm h]
      simp [dictGet?, dictSet, hp, h2, h3]
    · by_cases hq : p.1 == k2
      · simp [dictGet?, dictSet, hp, hq]
      · simpa [dictGet?, dictSet, hp, hq] using ih

/-- Membership in the keys after a `dictSet`. -/
theorem mem_dictKeys_dictSet (d : List (String × α)) (k x : String) (v : α) :
    x ∈ dictKeys (dictSet d k v) ↔ x ∈ dictKeys d ∨ x = k := by
  induction d with
  | nil => simp [dictKeys, dictSet]
  | cons p rest ih =>
    by_cases hp : p.1 == k
    · have hpk : p.1 = k := by simpa using hp
      simp [dictKeys, dictSet, hp, hpk]
      tauto
    · simp only [dictSet]
      rw [if_neg hp]
      simp only [dictKeys, List.map_cons, List.mem_cons] at ih ⊢
      rw [ih]
      tauto

/-- Membership in a Python set after `add`. -/
theorem mem_pySetAdd (s : List String) (x y : String) :
    x ∈ pySetAdd s y ↔ x ∈ s ∨ x = y := by
  by_cases h : y ∈ s
  · simp only [pySetAdd, if_pos h]
    constructor
    · exact Or.inl
    · rintro (hx | rfl)
      · exact hx
      · exact h
  · simp [pySetAdd, if_neg h]

/-- Keys set by the `_parse_contest` problem-id fold that are never touched
keep their prior binding. -/
theorem problem_ids_fold_lookup_not_mem :
    ∀ (l : List (String × ProblemInfo)) (m : List (String × Int)) (k : String),
      (∀ pp ∈ l, pp.1 ≠ k) →
      dictGet? (l.foldl (fun m pp => dictSet m pp.1 (pyOrd pp.2.label - pyOrd 'A')) m) k
        = dictGet? m k
  | [], _, _, _ => rfl
  | pp :: rest, m, k, h => by
    rw [List.foldl_cons]
    rw [problem_ids_fold_lookup_not_mem rest _ k (fun q hq => h q (List.mem_cons_of_mem _ hq))]
    exact dictGet?_dictSet_ne (Ne.symm (h pp (List.mem_cons_self _ _))) m _

/-- With pairwise-distinct remote problem ids, the `_parse_contest` fold maps
every entry's id to `ord(label) - ord('A')` for that entry's own label. -/
theorem problem_ids_fold_lookup_mem :
    ∀ (l : List (String × ProblemInfo)) (m : List (String × Int)),
      (l.map Prod.fst).Nodup →
      ∀ pp ∈ l,
        dictGet? (l.foldl (fun m pp => dictSet m pp.1 (pyOrd pp.2.label - pyOrd 'A')) m) pp.1
          = some (pyOrd pp.2.label - pyOrd 'A')
  | [], _, _, pp, hpp => absurd hpp (List.not_mem_nil pp)
  | q :: rest, m, hnd, pp, hpp => by
    rw [List.map_cons, List.nodup_cons] at hnd
    rcases List.mem_cons.mp hpp with rfl | hmem
    · rw [List.foldl_cons]
      rw [problem_ids_fold_lookup_not_mem rest _ pp.1
        (fun e he hek => hnd.1 (hek ▸ List.mem_map_of_mem Prod.fst he))]
      exact dictGet?_dictSet_self m pp.1 _
    · rw [List.foldl_cons]
      exact problem_ids_fold_lookup_mem rest _ hnd.2 pp hmem

/-- Per-step characterization of the `_parse_contest` fold: labels and balloon
colors are appended in payload order and the problem-id mapping is built with
`dictSet`. -/
theorem parse_contest_fold (l : List (String × ProblemInfo)) :
    ∀ (acc : Contest × List (String × Int)),
      (l.foldl parse_contest_step acc).1.problem_id
          = acc.1.problem_id ++ l.map (fun pp => pp.2.label)
      ∧ (l.foldl parse_contest_step acc).1.balloon_color
          = acc.1.balloon_color
              ++ l.map (fun pp => ({ background_color := pp.2.balloonRgb, color := "#000" } : Color))
      ∧ (l.foldl parse_contest_step acc).2
          = l.foldl (fun m pp => dictSet m pp.1 (pyOrd pp.2.label - pyOrd 'A')) acc.2 := by
  induction l with
  | nil => intro acc; simp
  | cons pp rest ih =>
    intro acc
    obtain ⟨h1, h2, h3⟩ := ih (parse_contest_step acc pp)
    refine ⟨?_, ?_, ?_⟩
    · rw [List.foldl_cons, h1, List.map_cons]
      simp [parse_contest_step, Contest.append_balloon_color]
    · rw [List.foldl_cons, h2, List.map_cons]
      simp [parse_contest_step, Contest.append_balloon_color]
    · rw [List.foldl_cons, h3, List.foldl_cons]
      rfl

/-- C8: for every rank snapshot (and initial contest object), after
`_parse_contest` the contest records one label and one balloon color per
problem of the payload, and `problem_quantity` equals that count:
`len(problem_id) == problem_quantity == len(balloon_color)`. -/
theorem parse_contest_problem_counts (tsOf : String → Int) (data : RankSnapshot)
    (contest : Contest) :
    (parse_contest tsOf data contest).1.problem_id.length
        = (parse_contest tsOf data contest).1.problem_quantity
    ∧ (parse_contest tsOf data contest).1.balloon_color.length
        = (parse_contest tsOf data contest).1.problem_quantity
    ∧ (parse_contest tsOf data contest).1.problem_quantity
        = data.problemInfoByProblemSetProblemId.length := by
  obtain ⟨h1, h2, _⟩ := parse_contest_fold data.problemInfoByProblemSetProblemId
    ({ contest with
        start_time := tsOf data.startAt
        end_time := tsOf data.endAt
        problem_id := []
        balloon_color := [] }, [])
  refine ⟨rfl, ?_, ?_⟩
  · show (List.foldl parse_contest_step _ _).1.balloon_color.length
        = (List.foldl parse_contest_step _ _).1.problem_id.length
    rw [h1, h2]
    simp
  · show (List.foldl parse_contest_step _ _).1.problem_id.length = _
    rw [h1]
    simp

/-! Claim theorems. -/

/-- C1: the per-team fetch-and-parse loop is supposed to attempt the
fetch-then-parse step up to 5 times, surfacing the last error only after all
attempts fail.  The code instead catches the first exception and immediately
re-raises it: with an action whose attempt 0 fails and whose attempt 1 would
succeed, `_fetch_and_parse_team_runs` fails with the first error and never
retries. -/
theorem fetch_and_parse_team_runs_aborts_on_first_error :
    fetch_and_parse_team_runs attemptFailOnce
        = .error (.remoteRequest "Failed to fetch, status: 500")
    ∧ attemptFailOnce 1 = .ok []
    ∧ kRetryTimes = 5 := by
  refine ⟨rfl, rfl, rfl⟩

/-- C2: for every boolean `fetch_runs` (and whatever executing `_parse` would
do), the public entry point `run` raises a `TypeError` before performing any
ingestion, because it passes the un-invoked coroutine function `_parse` plus
`fetch_runs` as a second positional argument to `asyncio.run`. -/
theorem run_raises_before_any_ingestion
    (execMain : PyVal → Except PTAError PTAState) (fetch_runs : Bool) :
    run execMain fetch_runs
      = .error (.typeError "run() takes 1 positional argument but 2 were given") := rfl

/-- C4: claimed, `_parse_groups` attaches a mapping with one entry per group
record, sending every `fid` to its `name`.  In the code the loop variable
`group` shadows the accumulator, so for the two-group payload
`[{fid g1, name N1}, {fid g2, name N2}]` the attached value is the last group
record with one extra key — the mapping contains no entry for `g1`. -/
theorem parse_groups_keeps_only_last_record :
    parse_groups [⟨"g1", "N1"⟩, ⟨"g2", "N2"⟩]
        = [("name", "N2"), ("fid", "g2"), ("g2", "N2")]
    ∧ dictGet? (parse_groups [⟨"g1", "N1"⟩, ⟨"g2", "N2"⟩]) "g1" = none := by
  refine ⟨rfl, rfl⟩

/-- C3 (counterexample): the claim that `_parse_contest` assigns the i-th
problem the label `'A' + i` and maps its remote id to the position i is false:
for a snapshot whose single problem record carries the label `B`, the contest
gets `problem_id = ['B']` (not `['A']`) and the retained mapping sends `p1`
to `ord('B') - ord('A') = 1` (not to its position 0). -/
theorem parse_contest_label_not_positional :
    (parse_contest (fun _ => 0) snapOneProblem {}).1.problem_id = ['B']
    ∧ (parse_contest (fun _ => 0) snapOneProblem {}).1.problem_id ≠ ['A']
    ∧ dictGet? (parse_contest (fun _ => 0) snapOneProblem {}).2 "p1" = some 1
    ∧ dictGet? (parse_contest (fun _ => 0) snapOneProblem {}).2 "p1" ≠ some 0 := by
  refine ⟨rfl, by decide, rfl, by decide⟩

/-- C3 (amended): `_parse_contest` assigns labels positionally only in the
sense that the i-th problem in iteration order contributes the i-th entry of
`problem_id` — but the label is the one carried by that problem's own `label`
field, and the retained mapping sends each remote problem id (when ids are
pairwise distinct) to `ord(label) - ord('A')` computed from that field, not to
the iteration position. -/
theorem parse_contest_labels_from_records (tsOf : String → Int) (data : RankSnapshot)
    (contest : Contest) :
    (parse_contest tsOf data contest).1.problem_id
        = data.problemInfoByProblemSetProblemId.map (fun pp => pp.2.label)
    ∧ ((data.problemInfoByProblemSetProblemId.map Prod.fst).Nodup →
        ∀ pp ∈ data.problemInfoByProblemSetProblemId,
          dictGet? (parse_contest tsOf data contest).2 pp.1
            = some (pyOrd pp.2.label - pyOrd 'A')) := by
  obtain ⟨h1, _, h3⟩ := parse_contest_fold data.problemInfoByProblemSetProblemId
    ({ contest with
        start_time := tsOf data.startAt
        end_time := tsOf data.endAt
        problem_id := []
        balloon_color := [] }, [])
  constructor
  · show (List.foldl parse_contest_step _ _).1.problem_id = _
    rw [h1]
    rfl
  · intro hnd pp hpp
    show dictGet? (List.foldl parse_contest_step _ _).2 pp.1 = _
    rw [h3]
    exact problem_ids_fold_lookup_mem data.problemInfoByProblemSetProblemId [] hnd pp hpp

/-- C3 (witness): the amended theorem applied to the concrete one-problem
snapshot with label `B`. -/
theorem parse_contest_labels_from_records_witness :
    (parse_contest (fun _ => 0) snapOneProblem {}).1.problem_id = ['B']
    ∧ dictGet? (parse_contest (fun _ => 0) snapOneProblem {}).2 "p1" = some 1 := by
  have h := parse_contest_labels_from_records (fun _ => 0) snapOneProblem {}
  constructor
  · rw [h.1]
    rfl
  · have h2 := h.2 (by decide) ("p1", ⟨'B', "#ff0000"⟩) (by decide)
    exact h2.trans (by decide)

/-- Membership characterization of the `_parse_teams` fold: an id survives
into the team dict and the id set exactly when it was already present or some
non-excluded record carries it. -/
theorem parse_teams_fold (rs : List RankingRec) :
    ∀ (acc : List (String × Team) × List String) (tid : String),
      (tid ∈ (rs.foldl parse_teams_step acc).2
        ↔ tid ∈ acc.2 ∨ ∃ r ∈ rs, r.teamInfo.excluded = false ∧ r.teamFid = tid)
      ∧ (tid ∈ dictKeys (rs.foldl parse_teams_step acc).1
        ↔ tid ∈ dictKeys acc.1 ∨ ∃ r ∈ rs, r.teamInfo.excluded = false ∧ r.teamFid = tid) := by
  induction rs with
  | nil =>
    intro acc tid
    simp
  | cons r rest ih =>
    intro acc tid
    rw [List.foldl_cons]
    cases hex : r.teamInfo.excluded
    case true =>
      have hstep : parse_teams_step acc r = acc := by
        simp [parse_teams_step, hex]
      rw [hstep]
      obtain ⟨i1, i2⟩ := ih acc tid
      have hc : (∃ x ∈ r :: rest, x.teamInfo.excluded = false ∧ x.teamFid = tid)
          ↔ (∃ x ∈ rest, x.teamInfo.excluded = false ∧ x.teamFid = tid) := by
        simp [hex]
      exact ⟨by rw [i1, hc], by rw [i2, hc]⟩
    case false =>
      have hstep : parse_teams_step acc r =
          (dictSet acc.1 r.teamFid
            { team_id := r.teamFid
              name := r.teamInfo.teamName
              organization := r.teamInfo.schoolName
              members := r.teamInfo.memberNames
              group := r.teamInfo.groupFids
              girl := r.teamInfo.girlMajor },
           pySetAdd acc.2 r.teamFid) := by
        simp [parse_teams_step, hex]
      rw [hstep]
      obtain ⟨i1, i2⟩ := ih (dictSet acc.1 r.teamFid
            { team_id := r.teamFid
              name := r.teamInfo.teamName
              organization := r.teamInfo.schoolName
              members := r.teamInfo.memberNames
              group := r.teamInfo.groupFids
              girl := r.teamInfo.girlMajor },
           pySetAdd acc.2 r.teamFid) tid
      constructor
      · rw [i1, mem_pySetAdd]
        simp only [List.mem_cons, hex]
        constructor
        · rintro ((h | rfl) | ⟨x, hx, hxe, rfl⟩)
          · exact Or.inl h
          · exact Or.inr ⟨r, Or.inl rfl, hex, rfl⟩
          · exact Or.inr ⟨x, Or.inr hx, hxe, rfl⟩
        · rintro (h | ⟨x, (rfl | hx), hxe, rfl⟩)
          · exact Or.inl (Or.inl h)
          · exact Or.inl (Or.inr rfl)
          · exact Or.inr ⟨x, hx, hxe, rfl⟩
      · rw [i2, mem_dictKeys_dictSet]
        simp only [List.mem_cons, hex]
        constructor
        · rintro ((h | rfl) | ⟨x, hx, hxe, rfl⟩)
          · exact Or.inl h
          · exact Or.inr ⟨r, Or.inl rfl, hex, rfl⟩
          · exact Or.inr ⟨x, Or.inr hx, hxe, rfl⟩
        · rintro (h | ⟨x, (rfl | hx), hxe, rfl⟩)
          · exact Or.inl (Or.inl h)
          · exact Or.inl (Or.inr rfl)
          · exact Or.inr ⟨x, hx, hxe, rfl⟩

/-- C9: `_parse_teams` never materializes an excluded record: a team id is in
the recorded surviving id set, and likewise among the keys of the built team
collection, exactly when some ranking record with the exclusion flag false
carries that id. -/
theorem parse_teams_excludes_flagged (data : RankSnapshot) (tid : String) :
    (tid ∈ (parse_teams data).2
      ↔ ∃ r ∈ data.rankings, r.teamInfo.excluded = false ∧ r.teamFid = tid)
    ∧ (tid ∈ dictKeys (parse_teams data).1
      ↔ ∃ r ∈ data.rankings, r.teamInfo.excluded = false ∧ r.teamFid = tid) := by
  obtain ⟨i1, i2⟩ := parse_teams_fold data.rankings ([], []) tid
  constructor
  · rw [parse_teams, i1]
    simp
  · rw [parse_teams, i2]
    simp [dictKeys]

/-- C9 (witness): on the concrete snapshot, the non-excluded id `t1` survives
and the excluded id `t9` does not. -/
theorem parse_teams_excludes_flagged_witness :
    "t1" ∈ (parse_teams snapTwoTeams).2 ∧ "t9" ∉ (parse_teams snapTwoTeams).2 := by
  have h1 := (parse_teams_excludes_flagged snapTwoTeams "t1").1
  have h9 := (parse_teams_excludes_flagged snapTwoTeams "t9").1
  refine ⟨h1.mpr (by decide), fun hm => ?_⟩
  exact (by decide :
    ¬∃ r ∈ snapTwoTeams.rankings, r.teamInfo.excluded = false ∧ r.teamFid = "t9") (h9.mp hm)

/-- When every record's remote problem id resolves, the `_parse_team_runs`
loop succeeds and appends exactly one run per record. -/
theorem parse_team_runs_loop_ok (problem_ids : List (String × Int)) (tsOf : String → Int)
    (team_id : String) :
    ∀ (data : List SubmissionRec) (runs : List Submission),
      (∀ s ∈ data, (dictGet? problem_ids s.problemSetProblemId).isSome) →
      ∃ out, parse_team_runs_loop problem_ids tsOf team_id data runs = .ok out
        ∧ out.length = runs.length + data.length
  | [], runs, _ => ⟨runs, rfl, by simp⟩
  | s :: rest, runs, h => by
    have hs := h s (List.mem_cons_self _ _)
    cases hg : dictGet? problem_ids s.problemSetProblemId with
    | none => rw [hg] at hs; exact absurd hs (by simp)
    | some pid =>
      obtain ⟨out, hout, hlen⟩ := parse_team_runs_loop_ok problem_ids tsOf team_id rest
        (runs ++ [{ team_id := team_id
                    status := parse_status s.status
                    problem_id := pid
                    timestamp := tsOf s.submitAt
                    submission_id := s.submissionId }])
        (fun q hq => h q (List.mem_cons_of_mem _ hq))
      refine ⟨out, ?_, ?_⟩
      · rw [parse_team_runs_loop, hg]
        exact hout
      · rw [hlen]
        simp
        omega

/-- When some record's remote problem id does not resolve, the
`_parse_team_runs` loop fails with the unknown-problem error. -/
theorem parse_team_runs_loop_err (problem_ids : List (String × Int)) (tsOf : String → Int)
    (team_id : String) :
    ∀ (data : List SubmissionRec) (runs : List Submission),
      (∃ s ∈ data, dictGet? problem_ids s.problemSetProblemId = none) →
      ∃ p, parse_team_runs_loop problem_ids tsOf team_id data runs
        = .error (.unknownProblem p)
  | [], _, h => absurd h (by simp)
  | s :: rest, runs, h => by
    cases hg : dictGet? problem_ids s.problemSetProblemId with
    | none =>
      refine ⟨s.problemSetProblemId, ?_⟩
      rw [parse_team_runs_loop, hg]
    | some pid =>
      obtain ⟨q, hq, hqn⟩ := h
      rcases List.mem_cons.mp hq with rfl | hmem
      · rw [hg] at hqn
        exact absurd hqn (by simp)
      · obtain ⟨p, hp⟩ := parse_team_runs_loop_err problem_ids tsOf team_id rest
          (runs ++ [{ team_id := team_id
                      status := parse_status s.status
                      problem_id := pid
                      timestamp := tsOf s.submitAt
                      submission_id := s.submissionId }]) ⟨q, hmem, hqn⟩
        refine ⟨p, ?_⟩
        rw [parse_team_runs_loop, hg]
        exact hp

/-- C7: `_parse_team_runs` fails hard with the unknown-problem error (the
`KeyError` on `self._problem_ids`, the spec's `UnknownProblemError`) whenever
some record's remote problem id is absent from the retained mapping, and when
every record's id is present it yields exactly one `Submission` per input
record. -/
theorem parse_team_runs_unknown_is_hard_error (problem_ids : List (String × Int))
    (tsOf : String → Int) (team_id : String) (data : List SubmissionRec) :
    ((∃ s ∈ data, dictGet? problem_ids s.problemSetProblemId = none) →
      ∃ p, parse_team_runs problem_ids tsOf data team_id = .error (.unknownProblem p))
    ∧ ((∀ s ∈ data, (dictGet? problem_ids s.problemSetProblemId).isSome) →
      ∃ out, parse_team_runs problem_ids tsOf data team_id = .ok out
        ∧ out.length = data.length) := by
  constructor
  · intro h
    exact parse_team_runs_loop_err problem_ids tsOf team_id data [] h
  · intro h
    obtain ⟨out, hout, hlen⟩ := parse_team_runs_loop_ok problem_ids tsOf team_id data [] h
    exact ⟨out, hout, by simpa using hlen⟩

/-- C7 (witness): at the concrete mapping knowing only `p1`, the payload
referencing `p9` fails with the unknown-problem error and the payload
referencing only `p1` yields one run per record. -/
theorem parse_team_runs_unknown_is_hard_error_witness :
    (∃ p, parse_team_runs pidsOne (fun _ => 0) teamRunsUnknown "t1"
        = .error (.unknownProblem p))
    ∧ (∃ out, parse_team_runs pidsOne (fun _ => 0) teamRunsKnown "t1" = .ok out
        ∧ out.length = 2) := by
  refine ⟨(parse_team_runs_unknown_is_hard_error pidsOne (fun _ => 0) "t1"
      teamRunsUnknown).1 (by decide), ?_⟩
  exact (parse_team_runs_unknown_is_hard_error pidsOne (fun _ => 0) "t1"
      teamRunsKnown).2 (by decide)

/-- Repeated `extend` over one batch appends the batch's run lists in team
order. -/
theorem foldl_extend_batch :
    ∀ (batch : List (List Submission)) (acc : List Submission),
      batch.foldl (fun all_runs team_run => all_runs ++ team_run) acc = acc ++ batch.flatten
  | [], acc => by simp
  | tr :: rest, acc => by
    rw [List.foldl_cons, foldl_extend_batch rest (acc ++ tr), List.flatten_cons,
      List.append_assoc]

/-- The aggregation loops of `_parse` concatenate the per-batch results in
batch order (and, within a batch, in team order). -/
theorem collect_runs_eq_flatten (team_runs_batches : List (List (List Submission))) :
    collect_runs team_runs_batches = (team_runs_batches.map List.flatten).flatten := by
  rw [collect_runs]
  have h : ∀ (bs : List (List (List Submission))) (acc : List Submission),
      bs.foldl (fun all_runs batch =>
          batch.foldl (fun all_runs team_run => all_runs ++ team_run) all_runs) acc
        = acc ++ (bs.map List.flatten).flatten := by
    intro bs
    induction bs with
    | nil => intro acc; simp
    | cons b rest ih =>
      intro acc
      rw [List.foldl_cons, foldl_extend_batch, ih, List.map_cons, List.flatten_cons,
        List.append_assoc]
  rw [h]
  rfl

/-- Stability of the timestamp sort: the submissions with any given timestamp
appear in the sorted output exactly in their input order. -/
theorem pySortByTimestamp_filter (l : List Submission) (t : Int) :
    (pySortByTimestamp l).filter (fun s => s.timestamp == t)
      = l.filter (fun s => s.timestamp == t) := by
  have hpair : (l.filter (fun s => s.timestamp == t)).Pairwise tsLe := by
    apply List.pairwise_of_forall_mem_list
    intro a ha b hb
    have ha3 : a.timestamp = t := by simpa using (List.mem_filter.mp ha).2
    have hb3 : b.timestamp = t := by simpa using (List.mem_filter.mp hb).2
    show a.timestamp ≤ b.timestamp
    omega
  have hsub : List.Sublist (l.filter (fun s => s.timestamp == t))
      (List.insertionSort tsLe l) :=
    List.sublist_insertionSort hpair (List.filter_sublist l)
  have hself : (l.filter (fun s => s.timestamp == t)).filter (fun s => s.timestamp == t)
      = l.filter (fun s => s.timestamp == t) :=
    List.filter_eq_self.mpr (fun a ha => (List.mem_filter.mp ha).2)
  have hsub2 := hsub.filter (fun s => s.timestamp == t)
  rw [hself] at hsub2
  have hperm := (List.perm_insertionSort tsLe l).filter (fun s => s.timestamp == t)
  exact (hsub2.eq_of_length hperm.length_eq.symm).symm

/-- C5: the final submission sequence installed by the orchestrator is sorted
non-decreasingly by timestamp, is a permutation of the concatenation of the
per-batch results in batch order, and is stable: for every timestamp the
submissions carrying it appear exactly in that concatenation order. -/
theorem orchestrate_sorted_and_stable (team_runs_batches : List (List (List Submission))) :
    List.Sorted tsLe (orchestrate team_runs_batches)
    ∧ List.Perm (orchestrate team_runs_batches)
        ((team_runs_batches.map List.flatten).flatten)
    ∧ ∀ t : Int,
        (orchestrate team_runs_batches).filter (fun s => s.timestamp == t)
          = ((team_runs_batches.map List.flatten).flatten).filter
              (fun s => s.timestamp == t) := by
  have hc : collect_runs team_runs_batches = (team_runs_batches.map List.flatten).flatten :=
    collect_runs_eq_flatten team_runs_batches
  refine ⟨?_, ?_, ?_⟩
  · exact List.sorted_insertionSort tsLe (collect_runs team_runs_batches)
  · rw [orchestrate, pySortByTimestamp, hc]
    exact List.perm_insertionSort tsLe _
  · intro t
    rw [orchestrate, pySortByTimestamp_filter, hc]

/-- Unfolding of the Python range underlying the batching loop. -/
theorem pyRange_batches (n : Nat) :
    pyRange 0 n batch_size = List.range' 0 ((n + 99) / 100) 100 := rfl

/-- Joining the consecutive slices starting at `s` recovers the suffix from
`s`, provided the slice count is exactly the remaining ceiling. -/
theorem flatten_slices (teams : List α) :
    ∀ (k s : Nat), k = (teams.length - s + 99) / 100 →
      ((List.range' s k 100).map (teamSlice teams)).flatten = teams.drop s := by
  intro k
  induction k with
  | zero =>
    intro s h
    have hle : teams.length ≤ s := by omega
    simp [List.drop_eq_nil_of_le hle]
  | succ k ih =>
    intro s h
    rw [List.range'_succ, List.map_cons, List.flatten_cons, ih (s + 100) (by omega)]
    show (teams.drop s).take batch_size ++ teams.drop (s + 100) = teams.drop s
    rw [show (100 : Nat) = batch_size from rfl, ← List.drop_drop, List.take_append_drop]

/-- Every batch produced by the partition is non-empty and no longer than the
batch size. -/
theorem teamChunks_sizes (teams : List α) :
    ∀ c ∈ teamChunks teams, 0 < c.length ∧ c.length ≤ batch_size := by
  intro c hc
  rw [teamChunks, pyRange_batches] at hc
  obtain ⟨i, hi, rfl⟩ := List.mem_map.mp hc
  obtain ⟨j, hj, rfl⟩ := List.mem_range'.mp hi
  simp only [teamSlice, batch_size, List.length_take, List.length_drop]
  omega

/-- Every batch except possibly the last has exactly the batch size. -/
theorem teamChunks_dropLast_full (teams : List α) :
    ∀ c ∈ (teamChunks teams).dropLast, c.length = batch_size := by
  intro c hc
  rw [teamChunks, pyRange_batches, ← List.map_dropLast] at hc
  obtain ⟨i, hi, rfl⟩ := List.mem_map.mp hc
  cases hk : (teams.length + 99) / 100 with
  | zero =>
    rw [hk] at hi
    exact absurd hi (by simp)
  | succ k =>
    rw [hk, List.range'_concat, List.dropLast_concat] at hi
    obtain ⟨j, hj, rfl⟩ := List.mem_range'.mp hi
    simp only [teamSlice, batch_size, List.length_take, List.length_drop]
    omega

/-- On an index list of positive indices, the batching loop emits a pacing
sleep before every batch. -/
theorem run_batches_loop_all_pos (teams : List α) :
    ∀ (is : List Nat), (∀ i ∈ is, 0 < i) →
      run_batches_loop teams is
        = (is.map (teamSlice teams)).flatMap
            (fun c => [BatchEvent.sleep, BatchEvent.batch c])
  | [], _ => rfl
  | i :: rest, h => by
    rw [run_batches_loop, if_pos (h i (List.mem_cons_self _ _)), List.map_cons,
      List.flatMap_cons,
      run_batches_loop_all_pos teams rest (fun q hq => h q (List.mem_cons_of_mem _ hq))]
    rfl

/-- The full batching trace: the first batch is processed with no pause, and
every later batch is preceded by exactly one pacing sleep. -/
theorem run_batches_trace (teams : List α) :
    run_batches teams
      = (match teamChunks teams with
          | [] => []
          | c :: cs =>
            BatchEvent.batch c :: cs.flatMap (fun c => [BatchEvent.sleep, BatchEvent.batch c])) := by
  rw [run_batches, teamChunks, pyRange_batches]
  cases hk : (teams.length + 99) / 100 with
  | zero => rfl
  | succ k =>
    rw [List.range'_succ, run_batches_loop, if_neg (by omega), List.map_cons]
    show _ ++ _ = _
    rw [List.nil_append,
      run_batches_loop_all_pos teams (List.range' (0 + 100) k 100)
        (fun i hi => by
          obtain ⟨j, hj, rfl⟩ := List.mem_range'.mp hi
          omega)]

/-- C6: for every team list, `_parse` partitions the teams into exactly
`ceil(N / 100)` consecutive, order-preserving batches of size 100 except a
possibly smaller (but non-empty) last one, processes them strictly in order,
and pauses exactly once before every batch except the first. -/
theorem parse_batching (teams : List α) :
    run_batches teams
      = (match teamChunks teams with
          | [] => []
          | c :: cs =>
            BatchEvent.batch c :: cs.flatMap (fun c => [BatchEvent.sleep, BatchEvent.batch c]))
    ∧ (teamChunks teams).length = (teams.length + 99) / 100
    ∧ (teamChunks teams).flatten = teams
    ∧ (∀ c ∈ teamChunks teams, 0 < c.length ∧ c.length ≤ batch_size)
    ∧ (∀ c ∈ (teamChunks teams).dropLast, c.length = batch_size) := by
  refine ⟨run_batches_trace teams, ?_, ?_, teamChunks_sizes teams,
    teamChunks_dropLast_full teams⟩
  · rw [teamChunks, pyRange_batches]
    simp
  · rw [teamChunks, pyRange_batches]
    have h := flatten_slices teams ((teams.length + 99) / 100) 0 (by omega)
    simpa using h

set_option maxRecDepth 20000 in
/-- C6 (witness): for 250 teams the partition has 3 batches, the first full
batch has 100 teams, and the trace shows batches of 100, 100 and 50 teams with
a pause before the second and third batches only. -/
theorem parse_batching_witness :
    (teamChunks (List.range 250)).length = 3
    ∧ ((teamChunks (List.range 250)).map List.length = [100, 100, 50])
    ∧ ((run_batches (List.range 250)).map
          (fun e => match e with
            | BatchEvent.sleep => none
            | BatchEvent.batch c => some c.length)
        = [some 100, none, some 100, none, some 50]) := by
  have h := parse_batching (List.range 250)
  refine ⟨?_, by decide, ?_⟩
  · rw [h.2.1, List.length_range]
  · rw [h.1]
    decide

/-- C10: when run fetching is disabled, `_parse` installs the result of
`_make_fake_runs`, whose loop reads every ranking record's per-problem summary
fields but never appends a `Submission`: the synthesized run collection is
empty for every rank snapshot. -/
theorem parse_without_fetch_installs_empty_runs (tsOf : String → Int)
    (groupsData : List GroupRec) (rank : RankSnapshot)
    (teamSubs : String → List SubmissionRec) (st : PTAState) :
    make_fake_runs rank = []
    ∧ ∃ st2, pta_parse tsOf groupsData rank teamSubs false st = .ok st2 ∧ st2.runs = [] :=
  ⟨make_fake_runs_eq_nil rank, _, rfl, make_fake_runs_eq_nil rank⟩

end XCPCIO
